import Mathlib

/-!
Verification of the format-preserving translation engine of
`translate_book.py` (functions `translate_openai`, `translate_google`,
`translate_book`), shallowly embedded.

Python strings are embedded as `List Char`; documents as lists of
paragraphs, each carrying an opaque formatting tag and a text.  The
network backends (the OpenAI chat completion and the Google translate
client) are modelled as oracle functions mapping the request to the
returned string; a second embedding with `Except`-valued oracles makes
the exception channel of a backend call explicit.  Call-trace functions
mirror the control flow to record which texts are dispatched to a
backend during a run.
-/

set_option maxRecDepth 10000

/-- A Python string, embedded as its list of characters. -/
abbrev Str := List Char

/-- Python `s.strip()`: remove leading and trailing whitespace. -/
def pyStrip (s : Str) : Str :=
  ((s.dropWhile Char.isWhitespace).reverse.dropWhile Char.isWhitespace).reverse

/-- Python `sep in s`: substring containment. -/
def hasSub (sep : Str) : Str → Bool
  | [] => sep.isEmpty
  | c :: cs => sep.isPrefixOf (c :: cs) || hasSub sep cs

/-- Python `s.split(sep)` for a non-empty separator: split `s` at every
non-overlapping occurrence of `sep`, scanning left to right.  (The
guard `sep ≠ []` only serves termination; the program always splits on
a fixed non-empty marker.) -/
def splitPy (sep : Str) : Str → List Str
  | [] => [[]]
  | c :: cs =>
    if h : sep ≠ [] ∧ sep.isPrefixOf (c :: cs) then
      [] :: splitPy sep ((c :: cs).drop sep.length)
    else
      match splitPy sep cs with
      | [] => [[c]]
      | hd :: tl => (c :: hd) :: tl
termination_by s => s.length
decreasing_by
  · simp only [List.length_drop, List.length_cons]
    have hlen : 0 < sep.length := List.length_pos.mpr h.1
    omega
  · simp

/-- Decomposition of `s` at the first occurrence of `sep`:
`some (pre, post)` with `s = pre ++ sep ++ post` and `sep` not occurring
in `pre`, or `none` when `sep` does not occur in `s`. -/
def splitFirst (sep : Str) : Str → Option (Str × Str)
  | [] => none
  | c :: cs =>
    if sep ≠ [] ∧ sep.isPrefixOf (c :: cs) then
      some ([], (c :: cs).drop sep.length)
    else
      (splitFirst sep cs).map (fun pq => (c :: pq.1, pq.2))

/-- Python `s.replace(pat, "")` for a non-empty pattern: delete every
non-overlapping occurrence of `pat`, scanning left to right. -/
def replaceAll (pat : Str) : Str → Str
  | [] => []
  | c :: cs =>
    if h : pat ≠ [] ∧ pat.isPrefixOf (c :: cs) then
      replaceAll pat ((c :: cs).drop pat.length)
    else
      c :: replaceAll pat cs
termination_by s => s.length
decreasing_by
  · simp only [List.length_drop, List.length_cons]
    have hlen : 0 < pat.length := List.length_pos.mpr h.1
    omega
  · simp

/-- The segment of `s` before the first occurrence of `sep` (all of `s`
when `sep` does not occur). -/
def firstSegment (sep s : Str) : Str :=
  match splitFirst sep s with
  | some pq => pq.1
  | none => s

/-- The literal section marker `"### Literal"`. -/
def litMarker : Str := "### Literal".data

/-- The poetic section marker `"### Poetic"`. -/
def poeMarker : Str := "### Poetic".data

/-- The provider string `"openai"`. -/
def oaiStr : Str := "openai".data

/-- The provider string `"google"`. -/
def gglStr : Str := "google".data

/-- The mode string `"literal"`. -/
def litModeStr : Str := "literal".data

/-- The mode string `"poetic"`. -/
def poeModeStr : Str := "poetic".data

/-- The prompt f-string built by `translate_openai` (source lines 79-90). -/
def openaiPrompt (target_lang text : Str) : Str :=
  "\n    Translate the following passage from English into ".data
    ++ target_lang
    ++ ".\n\n    ### Literal\n    (close to the words)\n\n    ### Poetic\n    (soulful, rhythmic, poetic, but faithful)\n\n    Passage:\n    ".data
    ++ text
    ++ "\n    ".data

/-- The dual-output splitter: the inline block of `translate_openai`
(source lines 98-105).  When both markers occur, the response is split
on `"### Poetic"`; `parts[0]` with `"### Literal"` deleted and stripped
is the literal text and `parts[1]` stripped is the poetic text.
Otherwise both sides are the whole stripped response.  (`headD` stands
in for Python indexing; under the guard the split has at least two
parts, so the defaults are unreachable.) -/
def splitDual (content : Str) : Str × Str :=
  if hasSub litMarker content ∧ hasSub poeMarker content then
    let parts := splitPy poeMarker content
    (pyStrip (replaceAll litMarker (parts.headD [])),
     pyStrip ((parts.drop 1).headD []))
  else
    (pyStrip content, pyStrip content)

/-- A paragraph: an opaque formatting tag and a text.  The engine never
interprets the formatting, only copies it through the clones. -/
structure Para where
  fmt : Nat
  text : Str
deriving DecidableEq

/-- `translate_openai(text, target_lang, mode)` (source lines 76-111).
`clientSome` models whether the module-level OpenAI `client` is
non-`None`; `oOracle` models the chat-completion call, mapping the
prompt to the returned message content.  When the stripped text is
empty or the client is missing, the input is returned unchanged for
both sides; otherwise the response is split into literal and poetic
parts and filtered by `mode`. -/
def translate_openai (clientSome : Bool) (oOracle : Str → Str)
    (text target_lang mode : Str) : Str × Str :=
  if (pyStrip text).isEmpty || !clientSome then
    (text, text)
  else
    let content := oOracle (openaiPrompt target_lang text)
    let lp := splitDual content
    if mode = litModeStr then (lp.1, [])
    else if mode = poeModeStr then ([], lp.2)
    else (lp.1, lp.2)

/-- `translate_google(text, target_lang)` (source lines 113-121).
`gOracle` models the translate client call (with or without explicit
credentials, the code constructs a client and calls it the same way),
mapping text and target language to the translated text.  A text whose
strip is empty is returned unchanged with no call. -/
def translate_google (gOracle : Str → Str → Str) (text target_lang : Str) : Str :=
  if (pyStrip text).isEmpty then text
  else gOracle text target_lang

/-- The loop body of `translate_book` (source lines 130-143) for one
paragraph at index `i`: given the source paragraph, produce the pair
(literal-clone paragraph, poetic-clone paragraph) at that index.  Each
clone starts as a deep copy of the source, so an untouched paragraph is
the source paragraph itself. -/
def processPara (clientSome : Bool) (oOracle : Str → Str)
    (gOracle : Str → Str → Str) (provider target_lang mode : Str)
    (p : Para) : Para × Para :=
  if !(pyStrip p.text).isEmpty then
    if provider = oaiStr then
      let lp := translate_openai clientSome oOracle p.text target_lang mode
      ((if !lp.1.isEmpty then { p with text := lp.1 } else p),
       (if !lp.2.isEmpty then { p with text := lp.2 } else p))
    else if provider = gglStr then
      ({ p with text := translate_google gOracle p.text target_lang }, p)
    else
      (p, p)
  else
    ({ p with text := [] }, { p with text := [] })

/-- `translate_book(input_file, provider, target_lang, mode)` (source
lines 124-145).  The document is the ordered list of paragraphs of the
opened file; the two returned documents are the deep clones
`doc_literal` and `doc_poetic` after the loop.  Since iteration `i`
reads only `original.paragraphs[i]` and writes only index `i` of each
clone, the loop is an index-aligned map of `processPara`. -/
def translate_book (clientSome : Bool) (oOracle : Str → Str)
    (gOracle : Str → Str → Str) (doc : List Para)
    (provider target_lang mode : Str) : List Para × List Para :=
  (doc.map (fun p => (processPara clientSome oOracle gOracle provider target_lang mode p).1),
   doc.map (fun p => (processPara clientSome oOracle gOracle provider target_lang mode p).2))

/-- The texts `translate_openai` dispatches to the chat-completion
backend: none when the stripped text is empty or the client is missing
(source line 77 returns before the call), otherwise exactly one call
carrying this text. -/
def openaiCalls (clientSome : Bool) (text : Str) : List Str :=
  if (pyStrip text).isEmpty || !clientSome then [] else [text]

/-- The texts `translate_google` dispatches to the translate backend:
none when the stripped text is empty (source line 114 returns before
the call), otherwise exactly one call carrying this text. -/
def googleCalls (text : Str) : List Str :=
  if (pyStrip text).isEmpty then [] else [text]

/-- The backend calls issued while processing one paragraph of
`translate_book`, mirroring the branching of the loop body: an empty
paragraph reaches no translation function, a non-empty one reaches the
adapter selected by `provider`. -/
def para_calls (provider : Str) (clientSome : Bool) (p : Para) : List Str :=
  if !(pyStrip p.text).isEmpty then
    if provider = oaiStr then openaiCalls clientSome p.text
    else if provider = gglStr then googleCalls p.text
    else []
  else []

/-- All backend calls issued by one run of `translate_book`, in
paragraph order.  The control flow of the run never depends on a
backend response, so the trace is determined by the document, the
provider and the client state. -/
def translate_book_calls (clientSome : Bool) (doc : List Para)
    (provider : Str) : List Str :=
  (doc.map (para_calls provider clientSome)).flatten

/-- `translate_openai` with the exception channel of the backend call
made explicit: `oOracle` may fail (a raised exception from the chat
completion request), in which case the failure propagates — the
function body has no handler. -/
def translate_openaiE {ε : Type} (clientSome : Bool)
    (oOracle : Str → Except ε Str) (text target_lang mode : Str) :
    Except ε (Str × Str) :=
  if (pyStrip text).isEmpty || !clientSome then
    .ok (text, text)
  else do
    let content ← oOracle (openaiPrompt target_lang text)
    let lp := splitDual content
    if mode = litModeStr then return (lp.1, [])
    else if mode = poeModeStr then return ([], lp.2)
    else return (lp.1, lp.2)

/-- `translate_google` with the exception channel of the backend call
made explicit. -/
def translate_googleE {ε : Type} (gOracle : Str → Str → Except ε Str)
    (text target_lang : Str) : Except ε Str :=
  if (pyStrip text).isEmpty then .ok text
  else gOracle text target_lang

/-- The loop body of `translate_book` with explicit exceptions: a
failing backend call makes the whole iteration fail, since the loop has
no handler. -/
def processParaE {ε : Type} (clientSome : Bool)
    (oOracle : Str → Except ε Str) (gOracle : Str → Str → Except ε Str)
    (provider target_lang mode : Str) (p : Para) :
    Except ε (Para × Para) :=
  if !(pyStrip p.text).isEmpty then
    if provider = oaiStr then do
      let lp ← translate_openaiE clientSome oOracle p.text target_lang mode
      return ((if !lp.1.isEmpty then { p with text := lp.1 } else p),
              (if !lp.2.isEmpty then { p with text := lp.2 } else p))
    else if provider = gglStr then do
      let new_text ← translate_googleE gOracle p.text target_lang
      return ({ p with text := new_text }, p)
    else
      return (p, p)
  else
    return ({ p with text := [] }, { p with text := [] })

/-- The paragraph loop of `translate_book` with explicit exceptions:
paragraphs are processed in order and the first failing backend call
aborts the remainder of the loop, exactly as an uncaught Python
exception unwinds the `for` loop. -/
def processDocE {ε : Type} (f : Para → Except ε (Para × Para)) :
    List Para → Except ε (List Para × List Para)
  | [] => .ok ([], [])
  | p :: ps => do
    let lq ← f p
    let rest ← processDocE f ps
    return (lq.1 :: rest.1, lq.2 :: rest.2)

/-- `translate_book` with the exception channel made explicit: either
every dispatched backend call succeeds and both clones are returned, or
the run aborts with the first raised error and no document is
returned. -/
def translate_bookE {ε : Type} (clientSome : Bool)
    (oOracle : Str → Except ε Str) (gOracle : Str → Str → Except ε Str)
    (doc : List Para) (provider target_lang mode : Str) :
    Except ε (List Para × List Para) :=
  processDocE (processParaE clientSome oOracle gOracle provider target_lang mode) doc

/-- Whether an `Except` value carries a result. -/
def exceptOk {ε α : Type} : Except ε α → Bool
  | .ok _ => true
  | .error _ => false

/-- The splitter behavior exactly as the claim words it: when both
markers are present, the response is split at the first occurrence of
the poetic marker; the literal text is everything before it with the
literal marker text deleted and stripped, and the poetic text is
EVERYTHING after it, stripped. -/
def splitSpecC3 (content : Str) : Str × Str :=
  if hasSub litMarker content ∧ hasSub poeMarker content then
    match splitFirst poeMarker content with
    | some pq => (pyStrip (replaceAll litMarker pq.1), pyStrip pq.2)
    | none => (pyStrip content, pyStrip content)
  else
    (pyStrip content, pyStrip content)

/-- The splitter behavior with the poetic side amended: the poetic text
is only the segment after the first occurrence of the poetic marker and
before its next occurrence, stripped. -/
def splitDualAmended (content : Str) : Str × Str :=
  if hasSub litMarker content ∧ hasSub poeMarker content then
    match splitFirst poeMarker content with
    | some pq => (pyStrip (replaceAll litMarker pq.1),
                  pyStrip (firstSegment poeMarker pq.2))
    | none => (pyStrip content, pyStrip content)
  else
    (pyStrip content, pyStrip content)

/-- When `sep` does not occur in `s` (no first occurrence), Python
split returns the whole string as the only part. -/
theorem splitPy_of_splitFirst_none (sep : Str) :
    ∀ s : Str, splitFirst sep s = none → splitPy sep s = [s] := by
  intro s
  induction s with
  | nil => intro _; simp [splitPy]
  | cons c cs ih =>
    intro hn
    by_cases hg : sep ≠ [] ∧ sep.isPrefixOf (c :: cs)
    · rw [splitFirst, if_pos hg] at hn
      exact absurd hn (by simp)
    · rw [splitFirst, if_neg hg] at hn
      have hcs : splitFirst sep cs = none := by
        cases h : splitFirst sep cs with
        | none => rfl
        | some v => rw [h] at hn; simp at hn
      rw [splitPy, dif_neg hg, ih hcs]

/-- Splitting at the first occurrence peels off the first part of the
Python split. -/
theorem splitPy_of_splitFirst_some (sep : Str) :
    ∀ s pre post : Str, splitFirst sep s = some (pre, post) →
      splitPy sep s = pre :: splitPy sep post := by
  intro s
  induction s with
  | nil => intro pre post h; rw [splitFirst] at h; exact absurd h (by simp)
  | cons c cs ih =>
    intro pre post h
    by_cases hg : sep ≠ [] ∧ sep.isPrefixOf (c :: cs)
    · rw [splitFirst, if_pos hg] at h
      obtain ⟨h1, h2⟩ : pre = [] ∧ (c :: cs).drop sep.length = post := by
        have := Option.some.inj h
        exact ⟨(Prod.mk.injEq .. ▸ this).1.symm, (Prod.mk.injEq .. ▸ this).2⟩
      subst h1 h2
      rw [splitPy, dif_pos hg]
    · rw [splitFirst, if_neg hg] at h
      cases hcs : splitFirst sep cs with
      | none => rw [hcs] at h; simp at h
      | some ab =>
        rw [hcs] at h
        simp only [Option.map_some'] at h
        have := Option.some.inj h
        have h1 : pre = c :: ab.1 := ((Prod.mk.injEq ..).mp this.symm).1
        have h2 : ab.2 = post := ((Prod.mk.injEq ..).mp this).2
        rw [splitPy, dif_neg hg, ih ab.1 ab.2 (by rw [hcs]), h1, h2]

/-- A non-empty substring that occurs in `s` has a first occurrence. -/
theorem splitFirst_isSome_of_hasSub (sep : Str) (hne : sep ≠ []) :
    ∀ s : Str, hasSub sep s = true → (splitFirst sep s).isSome := by
  intro s
  induction s with
  | nil =>
    intro h
    rw [hasSub] at h
    exact absurd h (by simpa [List.isEmpty_iff] using hne)
  | cons c cs ih =>
    intro h
    rw [hasSub, Bool.or_eq_true] at h
    rcases h with h | h
    · rw [splitFirst, if_pos ⟨hne, h⟩]; rfl
    · by_cases hg : sep ≠ [] ∧ sep.isPrefixOf (c :: cs)
      · rw [splitFirst, if_pos hg]; rfl
      · rw [splitFirst, if_neg hg]
        simpa [Option.isSome_map] using ih h

/-- The head of a Python split is the segment before the first
occurrence of the separator. -/
theorem splitPy_headD (sep s : Str) :
    (splitPy sep s).headD [] = firstSegment sep s := by
  cases h : splitFirst sep s with
  | none => rw [splitPy_of_splitFirst_none sep s h, firstSegment, h]; rfl
  | some pq =>
    rw [splitPy_of_splitFirst_some sep s pq.1 pq.2 (by rw [h]), firstSegment, h]
    rfl

/-- The splitter agrees everywhere with its amended description. -/
theorem splitDual_eq_amended (content : Str) :
    splitDual content = splitDualAmended content := by
  unfold splitDual splitDualAmended
  by_cases hc : hasSub litMarker content ∧ hasSub poeMarker content
  · rw [if_pos hc, if_pos hc]
    have hne : poeMarker ≠ [] := by decide
    have hs := splitFirst_isSome_of_hasSub poeMarker hne content hc.2
    cases hpq : splitFirst poeMarker content with
    | none => rw [hpq] at hs; simp at hs
    | some pq =>
      rw [splitPy_of_splitFirst_some poeMarker content pq.1 pq.2 (by rw [hpq])]
      simp only [List.headD_cons, List.drop_succ_cons, List.drop_zero,
        splitPy_headD]
  · rw [if_neg hc, if_neg hc]

/-- A generative response in which the poetic marker occurs twice. -/
def exC3 : Str := "### Literal A ### Poetic B ### Poetic C".data

/-- C3 (amended): for every raw generative response, if both section
markers are present the splitter returns as literal everything before
the first occurrence of the poetic marker with the literal marker text
removed and trimmed, and as poetic the segment after that occurrence up
to (not including) the next occurrence of the poetic marker (to the end
when there is no further occurrence), trimmed; if either marker is
missing, both literal and poetic equal the entire trimmed response. -/
theorem C3_splitter_amended (content : Str) :
    splitDual content = splitDualAmended content :=
  splitDual_eq_amended content

/-- C3 (counterexample): on a response containing the poetic marker
twice, the code keeps as poetic only the segment between the first and
second occurrences, while the claim says the poetic side is everything
after the split point; the two disagree. -/
theorem C3_counterexample :
    splitDual exC3 = ("A".data, "B".data) ∧
    splitSpecC3 exC3 = ("A".data, "B ### Poetic C".data) ∧
    splitDual exC3 ≠ splitSpecC3 exC3 := by
  have h1 : splitDual exC3 = ("A".data, "B".data) := by
    simp [splitDual, exC3, splitPy, replaceAll, pyStrip, hasSub, litMarker,
      poeMarker]
  have h2 : splitSpecC3 exC3 = ("A".data, "B ### Poetic C".data) := by
    simp [splitSpecC3, exC3, splitFirst, replaceAll, pyStrip, hasSub,
      firstSegment, litMarker, poeMarker]
  refine ⟨h1, h2, ?_⟩
  rw [h1, h2]
  decide

/-- Overwriting or keeping the text of a paragraph keeps its
formatting tag. -/
theorem fmt_ite (p : Para) (c : Prop) [Decidable c] (t : Str) :
    (if c then { p with text := t } else p).fmt = p.fmt := by
  split <;> rfl

/-- The loop body never changes the formatting tag of a paragraph, in
either clone. -/
theorem processPara_fmt (clientSome : Bool) (oOracle : Str → Str)
    (gOracle : Str → Str → Str) (provider target_lang mode : Str)
    (p : Para) :
    (processPara clientSome oOracle gOracle provider target_lang mode p).1.fmt = p.fmt ∧
    (processPara clientSome oOracle gOracle provider target_lang mode p).2.fmt = p.fmt := by
  unfold processPara
  split_ifs <;> try simp
  constructor <;> split <;> rfl

/-- C1: for every source document and every provider and mode, each
output document returned by the engine (both the literal clone and the
poetic clone) has exactly the same number of paragraphs as the source
document, and the paragraph at each index is the clone of the source
paragraph at the same index (same formatting tag), so no paragraph is
dropped, reordered, or merged. -/
theorem C1_paragraph_alignment (clientSome : Bool) (oOracle : Str → Str)
    (gOracle : Str → Str → Str) (doc : List Para)
    (provider target_lang mode : Str) :
    ((translate_book clientSome oOracle gOracle doc provider target_lang mode).1.length
        = doc.length ∧
     (translate_book clientSome oOracle gOracle doc provider target_lang mode).2.length
        = doc.length) ∧
    (∀ i : Nat,
      (translate_book clientSome oOracle gOracle doc provider target_lang mode).1[i]?.map Para.fmt
          = doc[i]?.map Para.fmt ∧
      (translate_book clientSome oOracle gOracle doc provider target_lang mode).2[i]?.map Para.fmt
          = doc[i]?.map Para.fmt) := by
  unfold translate_book
  refine ⟨⟨List.length_map .., List.length_map ..⟩, fun i => ⟨?_, ?_⟩⟩
  · rw [List.getElem?_map]
    cases doc[i]? with
    | none => rfl
    | some p =>
      show some ((processPara clientSome oOracle gOracle provider target_lang mode p).1.fmt)
        = some p.fmt
      exact congrArg some
        (processPara_fmt clientSome oOracle gOracle provider target_lang mode p).1
  · rw [List.getElem?_map]
    cases doc[i]? with
    | none => rfl
    | some p =>
      show some ((processPara clientSome oOracle gOracle provider target_lang mode p).2.fmt)
        = some p.fmt
      exact congrArg some
        (processPara_fmt clientSome oOracle gOracle provider target_lang mode p).2

/-- The three-paragraph example document
`["Hello world", "", "Goodbye"]`. -/
def docEx : List Para :=
  [⟨0, "Hello world".data⟩, ⟨1, []⟩, ⟨2, "Goodbye".data⟩]

/-- C2: a paragraph whose source text strips to empty is set to the
empty string in both output clones, for every provider and mode, and
contributes no backend call; concretely, running the three-paragraph
document `["Hello world", "", "Goodbye"]` through the direct (google)
backend issues exactly 2 backend calls. -/
theorem C2_empty_paragraph_blanking (clientSome : Bool) (oOracle : Str → Str)
    (gOracle : Str → Str → Str) (doc : List Para)
    (provider target_lang mode : Str) :
    (∀ (i : Nat) (p : Para), doc[i]? = some p → pyStrip p.text = [] →
      (translate_book clientSome oOracle gOracle doc provider target_lang mode).1[i]?
          = some { p with text := [] } ∧
      (translate_book clientSome oOracle gOracle doc provider target_lang mode).2[i]?
          = some { p with text := [] } ∧
      para_calls provider clientSome p = []) ∧
    (translate_book_calls clientSome docEx gglStr).length = 2 := by
  constructor
  · intro i p hp hstrip
    refine ⟨?_, ?_, ?_⟩
    · unfold translate_book
      rw [List.getElem?_map, hp]
      simp [processPara, hstrip]
    · unfold translate_book
      rw [List.getElem?_map, hp]
      simp [processPara, hstrip]
    · simp [para_calls, hstrip]
  · cases clientSome <;> decide

/-- C4: for a non-empty source paragraph under the openai provider, the
engine assigns the returned literal string to the literal clone only
when it is non-empty, and symmetrically for poetic; consequently under
mode=literal the poetic clone's paragraph keeps its cloned source text,
and under mode=poetic the literal clone's paragraph keeps the source
text. -/
theorem C4_generative_assignment (clientSome : Bool) (oOracle : Str → Str)
    (gOracle : Str → Str → Str) (doc : List Para) (target_lang mode : Str)
    (i : Nat) (p : Para) (hp : doc[i]? = some p) (hne : pyStrip p.text ≠ []) :
    ((translate_book clientSome oOracle gOracle doc oaiStr target_lang mode).1[i]?
        = some (if !(translate_openai clientSome oOracle p.text target_lang mode).1.isEmpty
            then { p with text := (translate_openai clientSome oOracle p.text target_lang mode).1 }
            else p) ∧
     (translate_book clientSome oOracle gOracle doc oaiStr target_lang mode).2[i]?
        = some (if !(translate_openai clientSome oOracle p.text target_lang mode).2.isEmpty
            then { p with text := (translate_openai clientSome oOracle p.text target_lang mode).2 }
            else p)) ∧
    (mode = litModeStr →
      (translate_book clientSome oOracle gOracle doc oaiStr target_lang mode).2[i]? = some p) ∧
    (mode = poeModeStr →
      (translate_book clientSome oOracle gOracle doc oaiStr target_lang mode).1[i]? = some p) := by
  have hB : (!(pyStrip p.text).isEmpty) = true := by
    cases hE : (pyStrip p.text).isEmpty
    · rfl
    · exact absurd (List.isEmpty_iff.mp hE) hne
  have hptext : p.text ≠ [] := by
    intro h
    exact hne (by rw [h]; rfl)
  have hq1 : (translate_book clientSome oOracle gOracle doc oaiStr target_lang mode).1[i]?
      = some (processPara clientSome oOracle gOracle oaiStr target_lang mode p).1 := by
    unfold translate_book
    rw [List.getElem?_map, hp]
    rfl
  have hq2 : (translate_book clientSome oOracle gOracle doc oaiStr target_lang mode).2[i]?
      = some (processPara clientSome oOracle gOracle oaiStr target_lang mode p).2 := by
    unfold translate_book
    rw [List.getElem?_map, hp]
    rfl
  have hproc : processPara clientSome oOracle gOracle oaiStr target_lang mode p
      = ((if !(translate_openai clientSome oOracle p.text target_lang mode).1.isEmpty
            then { p with text := (translate_openai clientSome oOracle p.text target_lang mode).1 }
            else p),
         (if !(translate_openai clientSome oOracle p.text target_lang mode).2.isEmpty
            then { p with text := (translate_openai clientSome oOracle p.text target_lang mode).2 }
            else p)) := by
    unfold processPara
    rw [if_pos hB, if_pos rfl]
  refine ⟨⟨by rw [hq1, hproc], by rw [hq2, hproc]⟩, ?_, ?_⟩
  · intro hm
    subst hm
    rw [hq2, hproc]
    have hlit : (translate_openai clientSome oOracle p.text target_lang litModeStr).2 = []
        ∨ (translate_openai clientSome oOracle p.text target_lang litModeStr).2 = p.text := by
      unfold translate_openai
      split
      · exact Or.inr rfl
      · rw [if_pos rfl]
        exact Or.inl rfl
    rcases hlit with h2 | h2 <;> rw [h2]
    · rfl
    · have : (!p.text.isEmpty) = true := by
        cases hE : p.text.isEmpty
        · rfl
        · exact absurd (List.isEmpty_iff.mp hE) hptext
      rw [if_pos this]
    
  · intro hm
    subst hm
    rw [hq1, hproc]
    have hpoe : (translate_openai clientSome oOracle p.text target_lang poeModeStr).1 = []
        ∨ (translate_openai clientSome oOracle p.text target_lang poeModeStr).1 = p.text := by
      unfold translate_openai
      split
      · exact Or.inr rfl
      · rw [if_neg (by decide), if_pos rfl]
        exact Or.inl rfl
    rcases hpoe with h1 | h1 <;> rw [h1]
    · rfl
    · have : (!p.text.isEmpty) = true := by
        cases hE : p.text.isEmpty
        · rfl
        · exact absurd (List.isEmpty_iff.mp hE) hptext
      rw [if_pos this]

/-- Witness for C4: a concrete one-paragraph run under mode=literal in
which the poetic clone keeps the source text. -/
theorem C4_witness :
    (translate_book true (fun _ => "### Literal X ### Poetic Y".data)
        (fun _ _ => []) [⟨0, "Hi".data⟩] oaiStr "fr".data litModeStr).2[0]?
      = some ⟨0, "Hi".data⟩ :=
  (C4_generative_assignment true (fun _ => "### Literal X ### Poetic Y".data)
      (fun _ _ => []) [⟨0, "Hi".data⟩] "fr".data litModeStr 0 ⟨0, "Hi".data⟩
      rfl (by decide)).2.1 rfl

/-- C5: for a non-empty source paragraph under the direct (google)
provider, the engine writes the returned translation into the literal
clone's paragraph only, and the poetic clone's paragraph is left as the
untouched clone of the source. -/
theorem C5_direct_frame (clientSome : Bool) (oOracle : Str → Str)
    (gOracle : Str → Str → Str) (doc : List Para) (target_lang mode : Str)
    (i : Nat) (p : Para) (hp : doc[i]? = some p) (hne : pyStrip p.text ≠ []) :
    (translate_book clientSome oOracle gOracle doc gglStr target_lang mode).1[i]?
        = some { p with text := translate_google gOracle p.text target_lang } ∧
    (translate_book clientSome oOracle gOracle doc gglStr target_lang mode).2[i]?
        = some p := by
  have hB : (!(pyStrip p.text).isEmpty) = true := by
    cases hE : (pyStrip p.text).isEmpty
    · rfl
    · exact absurd (List.isEmpty_iff.mp hE) hne
  constructor
  · unfold translate_book
    rw [List.getElem?_map, hp]
    show some (processPara clientSome oOracle gOracle gglStr target_lang mode p).1 = _
    unfold processPara
    rw [if_pos hB, if_neg (by decide : ¬(gglStr = oaiStr)), if_pos rfl]
  · unfold translate_book
    rw [List.getElem?_map, hp]
    show some (processPara clientSome oOracle gOracle gglStr target_lang mode p).2 = _
    unfold processPara
    rw [if_pos hB, if_neg (by decide : ¬(gglStr = oaiStr)), if_pos rfl]

/-- Witness for C5: a concrete one-paragraph run through the google
provider. -/
theorem C5_witness :
    (translate_book true (fun _ => []) (fun _ _ => "Bonjour".data)
        [⟨0, "Hi".data⟩] gglStr "fr".data litModeStr).1[0]?
      = some ⟨0, "Bonjour".data⟩ ∧
    (translate_book true (fun _ => []) (fun _ _ => "Bonjour".data)
        [⟨0, "Hi".data⟩] gglStr "fr".data litModeStr).2[0]?
      = some ⟨0, "Hi".data⟩ := by
  have h := C5_direct_frame true (fun _ => []) (fun _ _ => "Bonjour".data)
      [⟨0, "Hi".data⟩] "fr".data litModeStr 0 ⟨0, "Hi".data⟩ rfl (by decide)
  exact ⟨h.1, h.2⟩

/-- C6 (code behavior at the failing input): with no OpenAI client
constructed (missing credentials), `translate_openai` returns the
untranslated input as both literal and poetic and issues no backend
call, instead of failing; and the google adapter still dispatches the
call (it constructs a default client rather than failing). -/
theorem C6_missing_credentials_passthrough (oOracle : Str → Str)
    (target_lang mode : Str) :
    translate_openai false oOracle "Hello".data target_lang mode
        = ("Hello".data, "Hello".data) ∧
    openaiCalls false "Hello".data = [] ∧
    googleCalls "Hello".data = ["Hello".data] := by
  refine ⟨?_, by decide, by decide⟩
  unfold translate_openai
  rw [if_pos (by decide : ((pyStrip "Hello".data).isEmpty || !false) = true)]

/-- C7: if some paragraph of the document is dispatched and its backend
call raises an error, the run of `translate_book` returns no output
documents at all (the error propagates out of the engine, so the
pipeline driver has nothing to save). -/
theorem C7_abort_on_backend_error {ε : Type} (clientSome : Bool)
    (oOracle : Str → Except ε Str) (gOracle : Str → Str → Except ε Str)
    (doc : List Para) (provider target_lang mode : Str) (i : Nat) (p : Para)
    (e : ε) (hp : doc[i]? = some p)
    (he : processParaE clientSome oOracle gOracle provider target_lang mode p
        = .error e) :
    exceptOk (translate_bookE clientSome oOracle gOracle doc provider
        target_lang mode) = false := by
  unfold translate_bookE
  induction doc generalizing i with
  | nil => simp at hp
  | cons q qs ih =>
    cases i with
    | zero =>
      have hq : q = p := by simpa using hp
      subst hq
      simp only [processDocE, he]
      rfl
    | succ n =>
      have hq : qs[n]? = some p := by simpa using hp
      cases hfq : processParaE clientSome oOracle gOracle provider target_lang
          mode q with
      | error e1 =>
        simp only [processDocE, hfq]
        rfl
      | ok v =>
        have hqs := ih n hq
        cases hrest : processDocE (processParaE clientSome oOracle gOracle
            provider target_lang mode) qs with
        | error e1 =>
          simp only [processDocE, hfq, hrest]
          rfl
        | ok out =>
          rw [hrest] at hqs
          exact absurd hqs (by simp [exceptOk])

/-- Witness for C7: a concrete run whose single backend call errors. -/
theorem C7_witness :
    exceptOk (translate_bookE true (fun _ => Except.error (0 : Nat))
        (fun _ _ => Except.error 0) [⟨0, "Hi".data⟩] gglStr "fr".data
        litModeStr) = false :=
  C7_abort_on_backend_error true (fun _ => Except.error (0 : Nat))
    (fun _ _ => Except.error 0) [⟨0, "Hi".data⟩] gglStr "fr".data litModeStr
    0 ⟨0, "Hi".data⟩ 0 rfl rfl

/-- The loop body under the google provider does not depend on the mode
argument. -/
theorem processPara_google_mode (clientSome : Bool) (oOracle : Str → Str)
    (gOracle : Str → Str → Str) (target_lang mode1 mode2 : Str) (p : Para) :
    processPara clientSome oOracle gOracle gglStr target_lang mode1 p
      = processPara clientSome oOracle gOracle gglStr target_lang mode2 p := by
  unfold processPara
  split
  · rw [if_neg (by decide : ¬(gglStr = oaiStr)),
      if_neg (by decide : ¬(gglStr = oaiStr))]
  · rfl

/-- C8: direct-translation backends ignore mode entirely: two runs of
the engine with the google provider that differ only in the mode
argument produce identical output documents. -/
theorem C8_direct_mode_noninterference (clientSome : Bool)
    (oOracle : Str → Str) (gOracle : Str → Str → Str) (doc : List Para)
    (target_lang mode1 mode2 : Str) :
    translate_book clientSome oOracle gOracle doc gglStr target_lang mode1
      = translate_book clientSome oOracle gOracle doc gglStr target_lang mode2 := by
  unfold translate_book
  have h : (fun p => processPara clientSome oOracle gOracle gglStr target_lang mode1 p)
      = fun p => processPara clientSome oOracle gOracle gglStr target_lang mode2 p :=
    funext (processPara_google_mode clientSome oOracle gOracle target_lang mode1 mode2)
  exact congrArg
    (fun F => (doc.map (fun p => (F p).1), doc.map (fun p => (F p).2))) h

/-- C9: an input whose strip is empty short-circuits the direct
adapter: the input is returned unchanged, no backend call is issued,
and the result does not depend on the backend at all. -/
theorem C9_direct_empty_noop (g1 g2 : Str → Str → Str) (text target_lang : Str)
    (h : pyStrip text = []) :
    translate_google g1 text target_lang = text ∧
    googleCalls text = [] ∧
    translate_google g1 text target_lang = translate_google g2 text target_lang := by
  unfold translate_google googleCalls
  rw [h]
  simp

/-- Witness for C9: the one-space string. -/
theorem C9_witness :
    translate_google (fun _ _ => "X".data) " ".data "fr".data = " ".data ∧
    googleCalls " ".data = [] ∧
    translate_google (fun _ _ => "X".data) " ".data "fr".data
      = translate_google (fun _ _ => "Y".data) " ".data "fr".data :=
  C9_direct_empty_noop (fun _ _ => "X".data) (fun _ _ => "Y".data)
    " ".data "fr".data (by decide)

/-- C10: for a provider other than openai and google, the engine raises
no error and returns both clones, with every non-empty paragraph's text
unchanged and every whitespace-only paragraph blanked — silently
performing no translation. -/
theorem C10_unknown_provider_identity {ε : Type} (clientSome : Bool)
    (oOracle : Str → Except ε Str) (gOracle : Str → Str → Except ε Str)
    (doc : List Para) (provider target_lang mode : Str)
    (h1 : provider ≠ oaiStr) (h2 : provider ≠ gglStr) :
    translate_bookE clientSome oOracle gOracle doc provider target_lang mode
      = .ok (doc.map (fun p => if (pyStrip p.text).isEmpty then { p with text := [] } else p),
             doc.map (fun p => if (pyStrip p.text).isEmpty then { p with text := [] } else p)) := by
  unfold translate_bookE
  induction doc with
  | nil => rfl
  | cons q qs ih =>
    have hq : processParaE clientSome oOracle gOracle provider target_lang mode q
        = .ok ((if (pyStrip q.text).isEmpty then { q with text := [] } else q),
               (if (pyStrip q.text).isEmpty then { q with text := [] } else q)) := by
      unfold processParaE
      by_cases hE : (pyStrip q.text).isEmpty = true
      · simp [hE]
        rfl
      · simp [hE, h1, h2]
        rfl
    simp only [processDocE]
    rw [hq, ih]
    rfl

/-- Witness for C10: a two-paragraph run under an unknown provider with
error-raising oracles still succeeds and translates nothing. -/
theorem C10_witness :
    translate_bookE true (fun _ => Except.error (0 : Nat))
        (fun _ _ => Except.error 0) [⟨0, "Hi".data⟩, ⟨1, " ".data⟩]
        "deepl".data "fr".data litModeStr
      = .ok ([⟨0, "Hi".data⟩, ⟨1, []⟩], [⟨0, "Hi".data⟩, ⟨1, []⟩]) :=
  C10_unknown_provider_identity true (fun _ => Except.error (0 : Nat))
    (fun _ _ => Except.error 0) [⟨0, "Hi".data⟩, ⟨1, " ".data⟩]
    "deepl".data "fr".data litModeStr (by decide) (by decide)

/-- Witness for C2: paragraph 2 of the example document is blanked in
both clones and contributes no backend call. -/
theorem C2_witness :
    (translate_book true (fun _ => []) (fun _ _ => []) docEx gglStr
        "fr".data litModeStr).1[1]? = some ⟨1, []⟩ ∧
    (translate_book true (fun _ => []) (fun _ _ => []) docEx gglStr
        "fr".data litModeStr).2[1]? = some ⟨1, []⟩ ∧
    para_calls gglStr true ⟨1, []⟩ = [] :=
  (C2_empty_paragraph_blanking true (fun _ => []) (fun _ _ => []) docEx
      gglStr "fr".data litModeStr).1 1 ⟨1, []⟩ rfl rfl
